import Mathlib

/-!
Verification of the bounded-buffer producer/consumer core of the repository
(`src/Deepak/Assignment1/Producer-Consumer Problem/src/producer_consumer.py`
and `producer_consumer_wait_notify.py`).

The two Python classes `ProducerConsumer` (backed by `queue.Queue`) and
`ProducerConsumerWaitNotify` (hand-rolled condition variable) share the same
observable fields; we embed them as one record `ProducerConsumer` together
with an implementation tag `Impl` that selects the behaviour where the two
files differ.  The two OS threads spawned by `run` are embedded as a
deterministic step function driven by an explicit schedule: each `Move` names
the thread the scheduler runs next and carries the wall-clock wait duration
that `perf_counter` would observe around the blocking call, plus the racy
`qsize()` reading the queue-backed producer makes after its `put`.  A thread
whose blocking call cannot return (full buffer for the producer, empty buffer
for the consumer) leaves the state unchanged when scheduled, which models the
thread sitting inside `put`/`get`/`Condition.wait`.

Items are `Option Int`: `none` is Python's `None` sentinel, `some x` an
ordinary integer.  Wait-time sums are abstract `Nat` tick counts accumulated
from the schedule's durations; timestamps are `Nat` ticks supplied to `run`.
-/

/-- Embeds the `Statistics` dataclass (identical in both files):
`items_produced`, `items_consumed`, `producer_wait_time`, `consumer_wait_time`,
`max_queue_size`, `start_time`, `end_time`, all zero-initialised. -/
structure Statistics where
  items_produced : Nat
  items_consumed : Nat
  producer_wait_time : Nat
  consumer_wait_time : Nat
  max_queue_size : Nat
  start_time : Nat
  end_time : Nat
deriving DecidableEq, Repr

/-- Embeds `Statistics()` with the dataclass defaults: every field zero. -/
def Statistics.new : Statistics :=
  ⟨0, 0, 0, 0, 0, 0, 0⟩

/-- The shared object state of `ProducerConsumer.__init__` /
`ProducerConsumerWaitNotify.__init__`: the bounded buffer (`queue.Queue`
contents, resp. the `shared_queue` list), the source and destination
containers, the fixed capacity, the statistics record and the
producer-finished flag.  Locks have no observable state and are not fields. -/
structure ProducerConsumer where
  shared_queue : List (Option Int)
  source_container : List (Option Int)
  destination_container : List (Option Int)
  capacity : Nat
  stats : Statistics
  producer_finished : Bool
deriving DecidableEq, Repr

/-- Which of the two source files' behaviour is selected: `queue` is
`producer_consumer.py` (blocking `queue.Queue`), `waitNotify` is
`producer_consumer_wait_notify.py` (mutex + condition variable). -/
inductive Impl where
  | queue
  | waitNotify
deriving DecidableEq, Repr

/-- Embeds `__init__(capacity)` of either class: raises `ValueError` when
`capacity <= 0`, otherwise builds the object with empty containers, empty
buffer, fresh statistics and the finished flag cleared. -/
def ProducerConsumer.construct (capacity : Int) : Except String ProducerConsumer :=
  if capacity ≤ 0 then
    .error "Queue capacity must be greater than 0"
  else
    .ok ⟨[], [], [], capacity.toNat, Statistics.new, false⟩

/-- Embeds `initialize_source(item_count)` (identical in both files): raises
`ValueError` on a negative count — before touching any field, so the erroring
object is returned unchanged inside the error — otherwise replaces the source
container by `list(range(1, item_count + 1))`. -/
def ProducerConsumer.initialize_source (pc : ProducerConsumer) (item_count : Int) :
    Except (String × ProducerConsumer) ProducerConsumer :=
  if item_count < 0 then
    .error ("Item count must be non-negative", pc)
  else
    .ok { pc with
      source_container := (List.range' 1 item_count.toNat).map (fun (n : Nat) => some (n : Int)) }

/-- Embeds `initialize_source_custom(items)` of `producer_consumer.py`:
raises `ValueError` when the list reference is absent (`None`), before any
mutation; otherwise replaces the source container by a copy of the list. -/
def ProducerConsumer.initialize_source_custom (pc : ProducerConsumer)
    (items : Option (List (Option Int))) :
    Except (String × ProducerConsumer) ProducerConsumer :=
  match items with
  | none => .error ("Items list cannot be None", pc)
  | some l => .ok { pc with source_container := l }

/-- Embeds `reset_statistics` (identical in both files): fresh `Statistics()`,
finished flag cleared, destination container cleared.  The buffer, the source
container and the capacity are not touched. -/
def ProducerConsumer.reset_statistics (pc : ProducerConsumer) : ProducerConsumer :=
  { pc with
    stats := Statistics.new
    producer_finished := false
    destination_container := [] }

/-- Embeds `get_source_container`: returns a defensive copy and performs no
assignment, so the object comes back unchanged. -/
def ProducerConsumer.get_source_container (pc : ProducerConsumer) :
    List (Option Int) × ProducerConsumer :=
  (pc.source_container, pc)

/-- Embeds `get_destination_container`: returns a defensive copy (taken under
the destination lock) and performs no assignment. -/
def ProducerConsumer.get_destination_container (pc : ProducerConsumer) :
    List (Option Int) × ProducerConsumer :=
  (pc.destination_container, pc)

/-- Which thread the scheduler lets act. -/
inductive Role where
  | producer
  | consumer
deriving DecidableEq, Repr

/-- One scheduling decision: the thread that runs, the duration
(`perf_counter` ticks) its blocking call is charged with, and — for the
queue-backed producer — the racy `qsize()` value read after `put` (clamped
below by how many items the concurrent consumer may have removed in between,
so any value up to the length right after the push). -/
structure Move where
  role : Role
  dur : Nat
  obs : Nat
deriving DecidableEq, Repr

/-- The joint state of the two running threads: the shared object, the
producer's remaining source suffix (its position in the `for` loop), the
consumer's local `consumed` counter and its `total_items` target, and whether
the consumer's loop has exited. The producer's own termination coincides with
`producer_finished`, which it sets as its final action. -/
structure RunState where
  pc : ProducerConsumer
  src_rest : List (Option Int)
  consumed : Nat
  target : Nat
  consumer_done : Bool
deriving DecidableEq, Repr

/-- One scheduled action of the producer thread, from the bodies of
`ProducerConsumer.producer` / `ProducerConsumerWaitNotify.producer`:
skip a `None` item (logged only — no counter, no wait sample); push the next
item when the buffer has room, charging the wait duration, updating the
high-water mark from the observed size and incrementing `items_produced`;
set `producer_finished` once the source is exhausted (also the empty-source
case); otherwise the thread is blocked in `put`/`wait` and nothing changes. -/
def producerStep (impl : Impl) (s : RunState) (m : Move) : RunState :=
  match s.src_rest with
  | none :: rest =>
      { s with src_rest := rest }
  | some x :: rest =>
      if s.pc.shared_queue.length < s.pc.capacity then
        let newBuf := s.pc.shared_queue ++ [some x]
        let observed :=
          match impl with
          | .queue => min m.obs newBuf.length
          | .waitNotify => newBuf.length
        { s with
          src_rest := rest
          pc := { s.pc with
            shared_queue := newBuf
            stats := { s.pc.stats with
              producer_wait_time := s.pc.stats.producer_wait_time + m.dur
              max_queue_size := max s.pc.stats.max_queue_size observed
              items_produced := s.pc.stats.items_produced + 1 } } }
      else
        s
  | [] =>
      if s.pc.producer_finished then s
      else { s with pc := { s.pc with producer_finished := true } }

/-- One scheduled action of the consumer thread, from the bodies of
`ProducerConsumer.consumer` / `ProducerConsumerWaitNotify.consumer`:
exit the loop once `consumed` reached `total_items` (including the
`total_items == 0` early return); on an empty buffer the queue-backed variant
stays blocked in `get()` while the wait/notify variant, once
`producer_finished` holds, records its wait sample and breaks; a popped `None`
is skipped after the wait sample without counting or appending; an ordinary
item is appended to the destination and counted. -/
def consumerStep (impl : Impl) (s : RunState) (m : Move) : RunState :=
  if s.consumer_done then s
  else if s.target ≤ s.consumed then
    { s with consumer_done := true }
  else
    match s.pc.shared_queue with
    | [] =>
        match impl with
        | .queue => s
        | .waitNotify =>
            if s.pc.producer_finished then
              { s with
                consumer_done := true
                pc := { s.pc with stats := { s.pc.stats with
                  consumer_wait_time := s.pc.stats.consumer_wait_time + m.dur } } }
            else
              s
    | item :: rest =>
        match item with
        | none =>
            { s with pc := { s.pc with
                shared_queue := rest
                stats := { s.pc.stats with
                  consumer_wait_time := s.pc.stats.consumer_wait_time + m.dur } } }
        | some x =>
            { s with
              consumed := s.consumed + 1
              pc := { s.pc with
                shared_queue := rest
                destination_container := s.pc.destination_container ++ [some x]
                stats := { s.pc.stats with
                  consumer_wait_time := s.pc.stats.consumer_wait_time + m.dur
                  items_consumed := s.pc.stats.items_consumed + 1 } } }

/-- One scheduling decision applied to the joint state. -/
def step (impl : Impl) (s : RunState) (m : Move) : RunState :=
  match m.role with
  | .producer => producerStep impl s m
  | .consumer => consumerStep impl s m

/-- Run a whole schedule of interleaved thread actions. -/
def execSched (impl : Impl) (sched : List Move) (s : RunState) : RunState :=
  sched.foldl (step impl) s

/-- The joint state right after `run` has started both threads: the producer
is at the head of the source, the consumer has consumed nothing and targets
`total_items`, and neither has terminated. -/
def initRun (pc : ProducerConsumer) (total_items : Nat) : RunState :=
  ⟨pc, pc.source_container, 0, total_items, false⟩

/-- Predicate: `run` has returned from both joins: the producer has set its finished
flag and the consumer's loop has exited. -/
def RunState.completed (s : RunState) : Prop :=
  s.pc.producer_finished = true ∧ s.consumer_done = true

instance (s : RunState) : Decidable s.completed := by
  unfold RunState.completed; infer_instance

/-- The prelude of `run(item_count)` plus the interleaved execution of a
schedule prefix: `initialize_source` (which raises on a negative count before
anything else is touched), then `reset_statistics`, then the `start_time`
stamp `t0`, then both threads started and driven by `sched`.  Every state the
running system reaches is `runMid` of some prefix of the full schedule. -/
def ProducerConsumer.runMid (impl : Impl) (pc : ProducerConsumer) (item_count : Int)
    (t0 : Nat) (sched : List Move) :
    Except (String × ProducerConsumer) RunState :=
  match pc.initialize_source item_count with
  | .error e => .error e
  | .ok pc1 =>
      let pc2 := pc1.reset_statistics
      let pc3 := { pc2 with stats := { pc2.stats with start_time := t0 } }
      .ok (execSched impl sched (initRun pc3 item_count.toNat))

/-- Embeds `run(item_count)` of either class: the `runMid` prelude and
interleaving over the whole schedule, then the `end_time` stamp `t1` once
both joins returned.  The verification printout compares source and
destination and is covered by `RunState.verified`. -/
def ProducerConsumer.run (impl : Impl) (pc : ProducerConsumer) (item_count : Int)
    (t0 t1 : Nat) (sched : List Move) :
    Except (String × ProducerConsumer) RunState :=
  (ProducerConsumer.runMid impl pc item_count t0 sched).map
    (fun fin => { fin with pc := { fin.pc with stats := { fin.pc.stats with end_time := t1 } } })

/-- The verification check at the end of `run`:
`source_container == destination_container`. -/
def RunState.verified (s : RunState) : Bool :=
  s.pc.source_container = s.pc.destination_container

/-- The inductive invariant tying the shared object and the two thread-local
states together, maintained by every interleaving: the producer has processed
some prefix of the source whose non-sentinel items are exactly the
destination followed by the buffer (FIFO order preserved); the buffer never
holds a sentinel and never exceeds the capacity; `items_produced` counts the
pushed items still split between destination and buffer, `items_consumed`
counts the destination; the high-water mark is bounded by the capacity; the
finished flag implies an exhausted source; and an exited consumer loop either
reached its target or broke on empty-buffer-and-finished. -/
structure RunInv (s : RunState) : Prop where
  hand_off : ∃ pre, s.pc.source_container = pre ++ s.src_rest ∧
    s.pc.destination_container ++ s.pc.shared_queue =
      pre.filter (fun x => x.isSome)
  buf_clean : ∀ x ∈ s.pc.shared_queue, x.isSome = true
  len_le : s.pc.shared_queue.length ≤ s.pc.capacity
  produced_eq : s.pc.stats.items_produced =
    s.pc.destination_container.length + s.pc.shared_queue.length
  consumed_eq : s.pc.stats.items_consumed = s.pc.destination_container.length
  consumed_loc : s.consumed = s.pc.stats.items_consumed
  max_le : s.pc.stats.max_queue_size ≤ s.pc.capacity
  fin_src : s.pc.producer_finished = true → s.src_rest = []
  done_cases : s.consumer_done = true →
    s.target ≤ s.consumed ∨ (s.pc.shared_queue = [] ∧ s.pc.producer_finished = true)

/-- A producer scheduling decision with irrelevant duration/observation. -/
def pmove : Move := ⟨.producer, 0, 9⟩

/-- A consumer scheduling decision with irrelevant duration/observation. -/
def cmove : Move := ⟨.consumer, 0, 0⟩

/-- The object built by `ProducerConsumer(2)`. -/
def samplePC : ProducerConsumer := ⟨[], [], [], 2, Statistics.new, false⟩

/-- A schedule that completes a `run(3)` on a capacity-2 instance. -/
def sampleSched : List Move :=
  [pmove, cmove, pmove, cmove, pmove, cmove, pmove, cmove]

/-- The joint state after `consumer(2)` was given a source holding a single
item: the one produced item is already consumed, the buffer is empty, the
producer has finished, and the consumer still wants a second item. -/
def stuckState : RunState :=
  ⟨⟨[], [some 1], [some 1], 1, ⟨1, 1, 0, 0, 1, 0, 0⟩, true⟩, [], 1, 2, false⟩

/-- A schedule completing a wait/notify `run(3)` on capacity 2, driving the
buffer to its high-water mark of 2. -/
def sampleSchedW : List Move :=
  [pmove, pmove, pmove, cmove, cmove, pmove, pmove, cmove, cmove]

/-- The state after `runMid` of a queue-backed `run(3)` on `samplePC` under
`sampleSched` (no end stamp yet). -/
def sampleMidState : RunState :=
  ⟨⟨[], [some 1, some 2, some 3], [some 1, some 2, some 3], 2,
    ⟨3, 3, 0, 0, 1, 5, 0⟩, true⟩, [], 3, 3, true⟩

/-- The final state of a queue-backed `run(3)` on `samplePC` under
`sampleSched` with stamps 5 and 7. -/
def sampleFin : RunState :=
  ⟨⟨[], [some 1, some 2, some 3], [some 1, some 2, some 3], 2,
    ⟨3, 3, 0, 0, 1, 5, 7⟩, true⟩, [], 3, 3, true⟩

/-- The final state of a wait/notify `run(3)` on `samplePC` under
`sampleSchedW` with stamps 5 and 7. -/
def sampleFinW : RunState :=
  ⟨⟨[], [some 1, some 2, some 3], [some 1, some 2, some 3], 2,
    ⟨3, 3, 0, 0, 2, 5, 7⟩, true⟩, [], 3, 3, true⟩

theorem runInv_step (impl : Impl) (s : RunState) (m : Move) (h : RunInv s) :
    RunInv (step impl s m) := by
  obtain ⟨⟨buf, src, dest, cap, ⟨ip, ic, pw, cw, mx, st, et⟩, fin⟩, sr, cons, tgt, done⟩ := s
  obtain ⟨pre, hsrc, hdb⟩ := h.hand_off
  have hclean := h.buf_clean
  have hlen := h.len_le
  have hprod := h.produced_eq
  have hcons := h.consumed_eq
  have hloc := h.consumed_loc
  have hmax := h.max_le
  have hfin := h.fin_src
  have hdone := h.done_cases
  simp only at hsrc hdb hclean hlen hprod hcons hloc hmax hfin hdone
  obtain ⟨role, dur, obs⟩ := m
  cases role
  case producer =>
    cases sr with
    | nil =>
        cases fin with
        | true => simpa [step, producerStep] using h
        | false =>
            simp only [step, producerStep, Bool.false_eq_true, if_neg, ite_false]
            refine ⟨⟨pre, by simpa using hsrc, hdb⟩, hclean, hlen, hprod, hcons, hloc, hmax,
              fun _ => rfl, fun hd' => ?_⟩
            rcases hdone hd' with h1 | h2
            · exact Or.inl h1
            · exact absurd h2.2 (by simp)
    | cons hd rest =>
        cases hd with
        | none =>
            simp only [step, producerStep]
            refine ⟨⟨pre ++ [none], by simpa using hsrc, ?_⟩, hclean, hlen, hprod, hcons,
              hloc, hmax, ?_, by simpa using hdone⟩
            · simpa [List.filter_append] using hdb
            · intro hf
              exact absurd (hfin hf) (by simp)
        | some x =>
            by_cases hroom : buf.length < cap
            · simp only [step, producerStep, if_pos hroom]
              refine ⟨⟨pre ++ [some x], by simpa using hsrc, ?_⟩, ?_, ?_, ?_, hcons, hloc,
                ?_, ?_, ?_⟩
              · simp only [List.filter_append, List.filter_cons, Option.isSome_some,
                  if_pos, List.filter_nil]
                simp [← List.append_assoc, hdb]
              · intro y hy
                rcases List.mem_append.mp hy with hy' | hy'
                · exact hclean y hy'
                · simp only [List.mem_singleton] at hy'
                  subst hy'
                  rfl
              · simpa using hroom
              · simp only [List.length_append, List.length_cons, List.length_nil]
                omega
              · cases impl <;> simp_all <;> omega
              · intro hf
                exact absurd (hfin hf) (by simp)
              · intro hd'
                rcases hdone hd' with h1 | h2
                · exact Or.inl h1
                · exact absurd (hfin h2.2) (by simp)
            · simpa [step, producerStep, if_neg hroom] using h
  case consumer =>
    cases done with
    | true => simpa [step, consumerStep] using h
    | false =>
        by_cases htgt : tgt ≤ cons
        · simp only [step, consumerStep, Bool.false_eq_true, if_neg, if_pos htgt,
            ite_false]
          exact ⟨⟨pre, hsrc, hdb⟩, hclean, hlen, hprod, hcons, hloc, hmax, hfin,
            fun _ => Or.inl htgt⟩
        · cases buf with
          | nil =>
              cases impl with
              | queue => simpa [step, consumerStep, if_neg htgt] using h
              | waitNotify =>
                  cases fin with
                  | false => simpa [step, consumerStep, if_neg htgt] using h
                  | true =>
                      simp only [step, consumerStep, Bool.false_eq_true, if_neg,
                        if_neg htgt, ite_false, ite_true]
                      exact ⟨⟨pre, hsrc, hdb⟩, by simp, hlen,
                        by simpa using hprod, hcons, hloc, hmax, hfin,
                        fun _ => Or.inr ⟨rfl, rfl⟩⟩
          | cons hd rest =>
              cases hd with
              | none =>
                  exact absurd (hclean none (by simp)) (by simp)
              | some x =>
                  simp only [step, consumerStep, Bool.false_eq_true, if_neg,
                    if_neg htgt, ite_false]
                  refine ⟨⟨pre, hsrc, ?_⟩, ?_, ?_, ?_, ?_, ?_, hmax, hfin, ?_⟩
                  · simpa [List.append_assoc] using hdb
                  · intro y hy
                    exact hclean y (List.mem_cons_of_mem _ hy)
                  · simp only [List.length_append, List.length_cons, List.length_nil] at hlen ⊢
                    omega
                  · simp only [List.length_append, List.length_cons, List.length_nil] at hprod ⊢
                    omega
                  · simp only [List.length_append, List.length_cons, List.length_nil] at hcons ⊢
                    omega
                  · show cons + 1 = ic + 1
                    omega
                  · intro hd'
                    simp at hd'

theorem runInv_execSched (impl : Impl) (sched : List Move) (s : RunState)
    (h : RunInv s) : RunInv (execSched impl sched s) := by
  induction sched generalizing s with
  | nil => exact h
  | cons m rest ih => exact ih (step impl s m) (runInv_step impl s m h)

/-- Neither thread ever writes the capacity, the source container or the
consumer's target. -/
theorem step_frame (impl : Impl) (s : RunState) (m : Move) :
    (step impl s m).pc.capacity = s.pc.capacity ∧
    (step impl s m).pc.source_container = s.pc.source_container ∧
    (step impl s m).target = s.target := by
  obtain ⟨⟨buf, src, dest, cap, ⟨ip, ic, pw, cw, mx, st, et⟩, fin⟩, sr, cons, tgt, done⟩ := s
  obtain ⟨role, dur, obs⟩ := m
  cases role
  case producer =>
    rcases sr with _ | ⟨_ | x, rest⟩ <;> cases fin <;>
      simp [step, producerStep] <;> split <;> simp
  case consumer =>
    cases done <;> cases impl <;> cases fin <;>
      rcases buf with _ | ⟨_ | x, rest⟩ <;>
      simp [step, consumerStep] <;> split <;> simp

theorem execSched_frame (impl : Impl) (sched : List Move) (s : RunState) :
    (execSched impl sched s).pc.capacity = s.pc.capacity ∧
    (execSched impl sched s).pc.source_container = s.pc.source_container ∧
    (execSched impl sched s).target = s.target := by
  induction sched generalizing s with
  | nil => exact ⟨rfl, rfl, rfl⟩
  | cons m rest ih =>
      obtain ⟨h1, h2, h3⟩ := ih (step impl s m)
      obtain ⟨g1, g2, g3⟩ := step_frame impl s m
      exact ⟨h1.trans g1, h2.trans g2, h3.trans g3⟩

/-- The invariant holds right after `run` started the two threads. -/
theorem runInv_initRun (pc : ProducerConsumer) (n : Nat)
    (hq : pc.shared_queue = [])
    (hd : pc.destination_container = [])
    (hs : pc.stats.items_produced = 0)
    (hc : pc.stats.items_consumed = 0)
    (hm : pc.stats.max_queue_size = 0)
    (hf : pc.producer_finished = false) :
    RunInv (initRun pc n) := by
  refine ⟨⟨[], by simp [initRun], by simp [initRun, hq, hd]⟩, ?_, ?_, ?_, ?_, ?_, ?_, ?_, ?_⟩
  · intro x hx
    rw [initRun] at hx
    simp only [hq] at hx
    simp at hx
  · simp [initRun, hq]
  · simp [initRun, hq, hd, hs]
  · simp [initRun, hd, hc]
  · simp [initRun, hc]
  · simp [initRun, hm]
  · simp [initRun, hf]
  · simp [initRun]

/-- At the end of a completed run whose target equals the number of
non-sentinel source items, the destination holds exactly those items in
order, the buffer is drained, and both counters equal the target. -/
theorem completed_state (s : RunState) (h : RunInv s) (hc : s.completed)
    (ht : s.target = (s.pc.source_container.filter (fun x => x.isSome)).length) :
    s.pc.destination_container = s.pc.source_container.filter (fun x => x.isSome) ∧
    s.pc.shared_queue = [] ∧
    s.pc.stats.items_produced = s.target ∧
    s.pc.stats.items_consumed = s.target := by
  obtain ⟨hfin, hdone⟩ := hc
  obtain ⟨pre, hsrc, hdb⟩ := h.hand_off
  have hsr : s.src_rest = [] := h.fin_src hfin
  rw [hsr, List.append_nil] at hsrc
  subst hsrc
  have hlen := congrArg List.length hdb
  simp only [List.length_append] at hlen
  have hbuf : s.pc.shared_queue = [] := by
    rcases h.done_cases hdone with h1 | h2
    · have hc1 := h.consumed_eq
      have hc2 := h.consumed_loc
      have : s.pc.shared_queue.length = 0 := by omega
      exact List.length_eq_zero.mp this
    · exact h2.1
  rw [hbuf, List.append_nil] at hdb
  have hdl : s.pc.destination_container.length = s.target := by
    rw [hdb, ht]
  refine ⟨hdb, hbuf, ?_, ?_⟩
  · rw [h.produced_eq, hbuf, hdl]
    simp
  · rw [h.consumed_eq, hdl]

/-- Evaluating `runMid` on a nonnegative count: the source is materialised as
`[1..n]`, statistics and destination are reset, the start stamp recorded,
and the schedule executed from the fresh joint state. -/
theorem runMid_ok (impl : Impl) (pc : ProducerConsumer) (item_count : Int)
    (t0 : Nat) (sched : List Move) (hn : 0 ≤ item_count) :
    ProducerConsumer.runMid impl pc item_count t0 sched =
      .ok (execSched impl sched (initRun
        { pc with
          source_container := (List.range' 1 item_count.toNat).map (fun (n : Nat) => some (n : Int))
          destination_container := []
          stats := { Statistics.new with start_time := t0 }
          producer_finished := false } item_count.toNat)) := by
  have hn' : ¬ item_count < 0 := not_lt.mpr hn
  simp [ProducerConsumer.runMid, ProducerConsumer.initialize_source, hn',
    ProducerConsumer.reset_statistics, Statistics.new]

/-- The post-run state of `run(item_count)` for a nonnegative count, given a
drained buffer at call time: the object after the schedule plus the end
stamp. -/
theorem run_eq_ok (impl : Impl) (pc : ProducerConsumer) (item_count : Int)
    (t0 t1 : Nat) (sched : List Move) (hn : 0 ≤ item_count) :
    ∃ mid, ProducerConsumer.run impl pc item_count t0 t1 sched =
      .ok { mid with pc := { mid.pc with stats := { mid.pc.stats with end_time := t1 } } } ∧
      mid = execSched impl sched (initRun
        { pc with
          source_container := (List.range' 1 item_count.toNat).map (fun (n : Nat) => some (n : Int))
          destination_container := []
          stats := { Statistics.new with start_time := t0 }
          producer_finished := false } item_count.toNat) := by
  refine ⟨_, ?_, rfl⟩
  rw [ProducerConsumer.run, runMid_ok impl pc item_count t0 sched hn]
  rfl

/-- C5: Constructing either class with `capacity <= 0` raises the
invalid-argument error; `initialize_source` with a negative item count raises
the invalid-argument error; `initialize_source_custom` with an absent (None)
list raises the invalid-argument error; in every case the error is surfaced
immediately to the caller (the object inside the error is untouched). -/
theorem c5_invalid_argument_errors :
    (∀ c : Int, c ≤ 0 →
      ProducerConsumer.construct c = .error "Queue capacity must be greater than 0")
    ∧ (∀ (pc : ProducerConsumer) (n : Int), n < 0 →
        pc.initialize_source n = .error ("Item count must be non-negative", pc))
    ∧ (∀ pc : ProducerConsumer,
        pc.initialize_source_custom none = .error ("Items list cannot be None", pc)) := by
  refine ⟨fun c hc => ?_, fun pc n hn => ?_, fun pc => rfl⟩
  · rw [ProducerConsumer.construct, if_pos hc]
  · rw [ProducerConsumer.initialize_source, if_pos hn]

theorem c5_invalid_argument_errors_witness :
    ProducerConsumer.construct 0 = .error "Queue capacity must be greater than 0" ∧
    samplePC.initialize_source (-1) = .error ("Item count must be non-negative", samplePC) ∧
    samplePC.initialize_source_custom none = .error ("Items list cannot be None", samplePC) :=
  ⟨c5_invalid_argument_errors.1 0 (by decide),
   c5_invalid_argument_errors.2.1 samplePC (-1) (by decide),
   c5_invalid_argument_errors.2.2 samplePC⟩

/-- C6: for every `itemCount < 0`, `run(itemCount)` raises the
invalid-argument error before any producer or consumer task is started — the
schedule is never consulted — and the object carried by the error is exactly
the caller's object, so the destination sequence and the statistics retain
the values they had before the call, in both implementations. -/
theorem c6_negative_run_errors_state_unchanged (impl : Impl) (pc : ProducerConsumer)
    (item_count : Int) (t0 t1 : Nat) (sched : List Move) (hn : item_count < 0) :
    ProducerConsumer.run impl pc item_count t0 t1 sched =
      .error ("Item count must be non-negative", pc) := by
  rw [ProducerConsumer.run, ProducerConsumer.runMid, ProducerConsumer.initialize_source,
    if_pos hn]
  rfl

theorem c6_negative_run_errors_witness :
    ProducerConsumer.run .queue samplePC (-3) 0 0 sampleSched =
      .error ("Item count must be non-negative", samplePC) :=
  c6_negative_run_errors_state_unchanged .queue samplePC (-3) 0 0 sampleSched (by decide)

/-- C9: for every instance in any state, `reset_statistics` zeroes every
statistics field — both counters, both wait-time sums, the high-water mark and
both timestamps — and empties the destination sequence. -/
theorem c9_reset_zeroes_statistics (pc : ProducerConsumer) :
    (pc.reset_statistics).stats.items_produced = 0 ∧
    (pc.reset_statistics).stats.items_consumed = 0 ∧
    (pc.reset_statistics).stats.producer_wait_time = 0 ∧
    (pc.reset_statistics).stats.consumer_wait_time = 0 ∧
    (pc.reset_statistics).stats.max_queue_size = 0 ∧
    (pc.reset_statistics).stats.start_time = 0 ∧
    (pc.reset_statistics).stats.end_time = 0 ∧
    (pc.reset_statistics).destination_container = [] :=
  ⟨rfl, rfl, rfl, rfl, rfl, rfl, rfl, rfl⟩

/-- C10: `reset_statistics` leaves the source sequence, the capacity (and the
buffer) unchanged — it clears only the statistics, the producer-finished flag
and the destination — and `get_source_container` / `get_destination_container`
modify no field of the instance, returning copies of the respective
containers. -/
theorem c10_reset_and_getters_frame (pc : ProducerConsumer) :
    (pc.reset_statistics).source_container = pc.source_container ∧
    (pc.reset_statistics).capacity = pc.capacity ∧
    (pc.reset_statistics).shared_queue = pc.shared_queue ∧
    (pc.get_source_container).2 = pc ∧
    (pc.get_destination_container).2 = pc ∧
    (pc.get_source_container).1 = pc.source_container ∧
    (pc.get_destination_container).1 = pc.destination_container :=
  ⟨rfl, rfl, rfl, rfl, rfl, rfl, rfl⟩

/-- C8: a sentinel at the producer's cursor is skipped without raising,
without incrementing `items_produced` and without a producer wait-time
sample — indeed without touching anything but the cursor; a sentinel reaching
the consumer is popped and skipped without incrementing `items_consumed` or
`consumed` and without being appended to the destination.  Both hold for both
implementations. -/
theorem c8_sentinel_skipped (impl : Impl) (s : RunState) (m : Move)
    (rest rest' : List (Option Int)) :
    (s.src_rest = none :: rest →
      producerStep impl s m = { s with src_rest := rest } ∧
      (producerStep impl s m).pc.stats.items_produced = s.pc.stats.items_produced ∧
      (producerStep impl s m).pc.stats.producer_wait_time = s.pc.stats.producer_wait_time)
    ∧ (s.consumer_done = false → s.consumed < s.target →
        s.pc.shared_queue = none :: rest' →
        (consumerStep impl s m).pc.stats.items_consumed = s.pc.stats.items_consumed ∧
        (consumerStep impl s m).pc.destination_container = s.pc.destination_container ∧
        (consumerStep impl s m).consumed = s.consumed ∧
        (consumerStep impl s m).pc.shared_queue = rest') := by
  obtain ⟨⟨buf, src, dest, cap, ⟨ip, ic, pw, cw, mx, st, et⟩, fin⟩, sr, cons, tgt, done⟩ := s
  constructor
  · intro hsr
    simp only at hsr
    subst hsr
    exact ⟨rfl, rfl, rfl⟩
  · intro hdone hlt hbuf
    simp only at hdone hlt hbuf
    subst hdone hbuf
    simp [consumerStep, Nat.not_le.mpr hlt]

theorem c8_sentinel_skipped_witness :
    (producerStep .queue ⟨samplePC, [none, some 5], 0, 1, false⟩ pmove =
      ⟨samplePC, [some 5], 0, 1, false⟩ ∧
      (producerStep .queue ⟨samplePC, [none, some 5], 0, 1, false⟩ pmove).pc.stats.items_produced = 0 ∧
      (producerStep .queue ⟨samplePC, [none, some 5], 0, 1, false⟩ pmove).pc.stats.producer_wait_time = 0) ∧
    ((consumerStep .waitNotify ⟨⟨[none], [], [], 2, Statistics.new, false⟩, [], 0, 1, false⟩ cmove).pc.stats.items_consumed = 0 ∧
      (consumerStep .waitNotify ⟨⟨[none], [], [], 2, Statistics.new, false⟩, [], 0, 1, false⟩ cmove).pc.destination_container = [] ∧
      (consumerStep .waitNotify ⟨⟨[none], [], [], 2, Statistics.new, false⟩, [], 0, 1, false⟩ cmove).consumed = 0 ∧
      (consumerStep .waitNotify ⟨⟨[none], [], [], 2, Statistics.new, false⟩, [], 0, 1, false⟩ cmove).pc.shared_queue = []) := by
  constructor
  · exact (c8_sentinel_skipped .queue ⟨samplePC, [none, some 5], 0, 1, false⟩ pmove
      [some 5] []).1 rfl
  · exact (c8_sentinel_skipped .waitNotify ⟨⟨[none], [], [], 2, Statistics.new, false⟩,
      [], 0, 1, false⟩ cmove [] []).2 rfl (by decide) rfl

/-- Any successful `run` on an instance whose buffer is drained (as after
construction or a completed previous run) yields a state satisfying the
invariant, with the capacity, the materialised source `[1..n]` and the
consumer target carried through unchanged. -/
theorem run_ok_invariant (impl : Impl) (pc : ProducerConsumer) (item_count : Int)
    (t0 t1 : Nat) (sched : List Move) (fin : RunState)
    (hq : pc.shared_queue = []) (hn : 0 ≤ item_count)
    (hrun : ProducerConsumer.run impl pc item_count t0 t1 sched = .ok fin) :
    RunInv fin ∧ fin.pc.capacity = pc.capacity ∧
    fin.pc.source_container =
      (List.range' 1 item_count.toNat).map (fun (n : Nat) => some (n : Int)) ∧
    fin.target = item_count.toNat := by
  obtain ⟨mid, hrun', hmid⟩ := run_eq_ok impl pc item_count t0 t1 sched hn
  rw [hrun] at hrun'
  have hfin := Except.ok.inj hrun'
  subst hfin
  have hInv : RunInv mid := by
    rw [hmid]
    exact runInv_execSched impl sched _ (runInv_initRun _ _ hq rfl rfl rfl rfl rfl)
  have hframe := execSched_frame impl sched (initRun
    { pc with
      source_container := (List.range' 1 item_count.toNat).map (fun (n : Nat) => some (n : Int))
      destination_container := []
      stats := { Statistics.new with start_time := t0 }
      producer_finished := false } item_count.toNat)
  rw [← hmid] at hframe
  exact ⟨⟨hInv.hand_off, hInv.buf_clean, hInv.len_le, hInv.produced_eq, hInv.consumed_eq,
    hInv.consumed_loc, hInv.max_le, hInv.fin_src, hInv.done_cases⟩,
    hframe.1, hframe.2.1, hframe.2.2⟩

/-- A completed successful `run(item_count)` ends with destination equal to
the materialised source `[1..n]`, a drained buffer, and both counters equal
to `item_count`. -/
theorem run_completed_canonical (impl : Impl) (pc : ProducerConsumer) (item_count : Int)
    (t0 t1 : Nat) (sched : List Move) (fin : RunState)
    (hq : pc.shared_queue = []) (hn : 0 ≤ item_count)
    (hrun : ProducerConsumer.run impl pc item_count t0 t1 sched = .ok fin)
    (hc : fin.completed) :
    fin.pc.source_container =
      (List.range' 1 item_count.toNat).map (fun (n : Nat) => some (n : Int)) ∧
    fin.pc.destination_container =
      (List.range' 1 item_count.toNat).map (fun (n : Nat) => some (n : Int)) ∧
    fin.pc.stats.items_produced = item_count.toNat ∧
    fin.pc.stats.items_consumed = item_count.toNat := by
  obtain ⟨hInv, hcap, hsrc, htgt⟩ :=
    run_ok_invariant impl pc item_count t0 t1 sched fin hq hn hrun
  have hfilter : fin.pc.source_container.filter (fun x => x.isSome) =
      fin.pc.source_container := by
    rw [List.filter_eq_self]
    intro a ha
    rw [hsrc] at ha
    obtain ⟨n, _, rfl⟩ := List.mem_map.mp ha
    rfl
  have hflen : (fin.pc.source_container.filter (fun x => x.isSome)).length =
      item_count.toNat := by
    rw [hfilter, hsrc, List.length_map, List.length_range']
  obtain ⟨hdest, _, hprod, hcons⟩ :=
    completed_state fin hInv hc (by rw [hflen, htgt])
  rw [hfilter] at hdest
  exact ⟨hsrc, hdest.trans hsrc, by rw [hprod, htgt], by rw [hcons, htgt]⟩

/-- C1: for every capacity > 0 and every itemCount ≥ 0, after `run(itemCount)`
completes without a role failure, `get_source_container()` equals
`get_destination_container()` exactly — both are `[1..itemCount]` — in both
the queue-based and the wait/notify implementations. -/
theorem c1_completed_run_source_equals_destination (impl : Impl)
    (pc : ProducerConsumer) (item_count : Int) (t0 t1 : Nat) (sched : List Move)
    (fin : RunState)
    (hcap : 0 < pc.capacity) (hq : pc.shared_queue = []) (hn : 0 ≤ item_count)
    (hrun : ProducerConsumer.run impl pc item_count t0 t1 sched = .ok fin)
    (hc : fin.completed) :
    (fin.pc.get_source_container).1 = (fin.pc.get_destination_container).1 ∧
    (fin.pc.get_destination_container).1 =
      (List.range' 1 item_count.toNat).map (fun (n : Nat) => some (n : Int)) := by
  obtain ⟨hsrc, hdest, _, _⟩ :=
    run_completed_canonical impl pc item_count t0 t1 sched fin hq hn hrun hc
  exact ⟨hsrc.trans hdest.symm, hdest⟩

theorem c1_completed_run_witness :
    ProducerConsumer.run .queue samplePC 3 5 7 sampleSched = .ok sampleFin ∧
    (sampleFin.pc.get_source_container).1 = (sampleFin.pc.get_destination_container).1 ∧
    (sampleFin.pc.get_destination_container).1 =
      (List.range' 1 (3 : Int).toNat).map (fun (n : Nat) => some (n : Int)) := by
  have h := c1_completed_run_source_equals_destination .queue samplePC 3 5 7 sampleSched
    sampleFin (by decide) rfl (by decide) rfl (by decide)
  exact ⟨rfl, h.1, h.2⟩

/-- C4: at every state reachable during a run (each such state is `runMid` of
a prefix of the schedule), `0 ≤ items_produced - items_consumed ≤ capacity`;
and once producer and consumer have both terminated normally on the
(sentinel-free) materialised source, `items_produced = items_consumed =
itemCount`.  Holds for both implementations. -/
theorem c4_produced_consumed_invariant (impl : Impl) (pc : ProducerConsumer)
    (item_count : Int) (t0 : Nat)
    (hq : pc.shared_queue = []) (hn : 0 ≤ item_count) :
    (∀ sched s, ProducerConsumer.runMid impl pc item_count t0 sched = .ok s →
      s.pc.stats.items_consumed ≤ s.pc.stats.items_produced ∧
      s.pc.stats.items_produced - s.pc.stats.items_consumed ≤ pc.capacity)
    ∧ (∀ t1 sched fin,
        ProducerConsumer.run impl pc item_count t0 t1 sched = .ok fin →
        fin.completed →
        fin.pc.stats.items_produced = item_count.toNat ∧
        fin.pc.stats.items_consumed = item_count.toNat) := by
  constructor
  · intro sched s hs
    rw [runMid_ok impl pc item_count t0 sched hn] at hs
    have hsv := Except.ok.inj hs
    subst hsv
    have hInv := runInv_execSched impl sched (initRun
      { pc with
        source_container := (List.range' 1 item_count.toNat).map (fun (n : Nat) => some (n : Int))
        destination_container := []
        stats := { Statistics.new with start_time := t0 }
        producer_finished := false } item_count.toNat)
      (runInv_initRun _ _ hq rfl rfl rfl rfl rfl)
    have hframe := execSched_frame impl sched (initRun
      { pc with
        source_container := (List.range' 1 item_count.toNat).map (fun (n : Nat) => some (n : Int))
        destination_container := []
        stats := { Statistics.new with start_time := t0 }
        producer_finished := false } item_count.toNat)
    have h1 := hInv.produced_eq
    have h2 := hInv.consumed_eq
    have h3 := hInv.len_le
    have h4 : (execSched impl sched _).pc.capacity = pc.capacity := hframe.1
    omega
  · intro t1 sched fin hrun hc
    obtain ⟨_, _, hprod, hcons⟩ :=
      run_completed_canonical impl pc item_count t0 t1 sched fin hq hn hrun hc
    exact ⟨hprod, hcons⟩

theorem c4_produced_consumed_witness :
    (ProducerConsumer.runMid .queue samplePC 3 5 sampleSched = .ok sampleMidState ∧
      sampleMidState.pc.stats.items_consumed ≤ sampleMidState.pc.stats.items_produced ∧
      sampleMidState.pc.stats.items_produced - sampleMidState.pc.stats.items_consumed ≤
        samplePC.capacity) ∧
    (ProducerConsumer.run .queue samplePC 3 5 7 sampleSched = .ok sampleFin ∧
      sampleFin.pc.stats.items_produced = (3 : Int).toNat ∧
      sampleFin.pc.stats.items_consumed = (3 : Int).toNat) := by
  obtain ⟨h1, h2⟩ := c4_produced_consumed_invariant .queue samplePC 3 5 rfl (by decide)
  obtain ⟨g1, g2⟩ := h1 sampleSched sampleMidState rfl
  obtain ⟨g3, g4⟩ := h2 7 sampleSched sampleFin rfl (by decide)
  exact ⟨⟨rfl, g1, g2⟩, ⟨rfl, g3, g4⟩⟩

/-- C7: for every completed run (indeed for every successful `run` return),
the recorded high-water mark `stats.max_queue_size` never exceeds the
configured capacity, in both implementations. -/
theorem c7_max_queue_size_le_capacity (impl : Impl) (pc : ProducerConsumer)
    (item_count : Int) (t0 t1 : Nat) (sched : List Move) (fin : RunState)
    (hq : pc.shared_queue = []) (hn : 0 ≤ item_count)
    (hrun : ProducerConsumer.run impl pc item_count t0 t1 sched = .ok fin) :
    fin.pc.stats.max_queue_size ≤ pc.capacity ∧
    fin.pc.stats.max_queue_size ≤ fin.pc.capacity := by
  obtain ⟨hInv, hcap, _, _⟩ :=
    run_ok_invariant impl pc item_count t0 t1 sched fin hq hn hrun
  exact ⟨hcap ▸ hInv.max_le, hInv.max_le⟩

theorem c7_max_queue_size_witness :
    sampleFinW.pc.stats.max_queue_size ≤ samplePC.capacity ∧
    sampleFinW.pc.stats.max_queue_size ≤ sampleFinW.pc.capacity :=
  c7_max_queue_size_le_capacity .waitNotify samplePC 3 5 7 sampleSchedW sampleFinW
    rfl (by decide) rfl

/-- C2: the two buffer strategies are interchangeable: for every capacity > 0
and itemCount ≥ 0, completed runs of `ProducerConsumer.run(itemCount)` and
`ProducerConsumerWaitNotify.run(itemCount)` leave observably equal final
states — equal destination sequences, equal `items_produced` and
`items_consumed` counts. -/
theorem c2_strategies_observably_equivalent (pcQ pcW : ProducerConsumer)
    (item_count : Int) (t0 t1 t2 t3 : Nat) (schedQ schedW : List Move)
    (finQ finW : RunState)
    (hcapQ : 0 < pcQ.capacity) (hcapW : 0 < pcW.capacity)
    (hqQ : pcQ.shared_queue = []) (hqW : pcW.shared_queue = [])
    (hn : 0 ≤ item_count)
    (hrunQ : ProducerConsumer.run .queue pcQ item_count t0 t1 schedQ = .ok finQ)
    (hrunW : ProducerConsumer.run .waitNotify pcW item_count t2 t3 schedW = .ok finW)
    (hcQ : finQ.completed) (hcW : finW.completed) :
    finQ.pc.destination_container = finW.pc.destination_container ∧
    finQ.pc.stats.items_produced = finW.pc.stats.items_produced ∧
    finQ.pc.stats.items_consumed = finW.pc.stats.items_consumed := by
  obtain ⟨_, hdQ, hpQ, hcQ'⟩ :=
    run_completed_canonical .queue pcQ item_count t0 t1 schedQ finQ hqQ hn hrunQ hcQ
  obtain ⟨_, hdW, hpW, hcW'⟩ :=
    run_completed_canonical .waitNotify pcW item_count t2 t3 schedW finW hqW hn hrunW hcW
  exact ⟨hdQ.trans hdW.symm, hpQ.trans hpW.symm, hcQ'.trans hcW'.symm⟩

theorem c2_strategies_witness :
    ProducerConsumer.run .queue samplePC 3 5 7 sampleSched = .ok sampleFin ∧
    ProducerConsumer.run .waitNotify samplePC 3 5 7 sampleSchedW = .ok sampleFinW ∧
    sampleFin.pc.destination_container = sampleFinW.pc.destination_container ∧
    sampleFin.pc.stats.items_produced = sampleFinW.pc.stats.items_produced ∧
    sampleFin.pc.stats.items_consumed = sampleFinW.pc.stats.items_consumed := by
  obtain ⟨h1, h2, h3⟩ := c2_strategies_observably_equivalent samplePC samplePC 3 5 7 5 7
    sampleSched sampleSchedW sampleFin sampleFinW (by decide) (by decide) rfl rfl
    (by decide) rfl rfl (by decide) (by decide)
  exact ⟨rfl, rfl, h1, h2, h3⟩

/-- C3 counterexample: in the queue-based implementation the consumer has no
empty-buffer-and-producer-finished check at all (`shared_queue.get()` simply
blocks).  In the concrete state `stuckState` — buffer empty, producer
finished, one item short of its target — a scheduled consumer action leaves
the state unchanged instead of breaking, and an arbitrary finite schedule
never sets `consumer_done`: the claim that *both* implementations detect the
condition and break is false on this input. -/
theorem c3_counterexample :
    stuckState.pc.shared_queue = [] ∧
    stuckState.pc.producer_finished = true ∧
    stuckState.consumed < stuckState.target ∧
    consumerStep .queue stuckState cmove = stuckState ∧
    (execSched .queue [cmove, cmove, pmove, cmove, cmove] stuckState).consumer_done
      = false ∧
    (consumerStep .waitNotify stuckState cmove).consumer_done = true := by
  refine ⟨rfl, rfl, by decide, ?_, ?_, ?_⟩ <;> decide

/-- C3 amended: only the wait/notify implementation detects the
empty-buffer-and-producer-finished condition and breaks out of its loop; the
queue-based consumer blocks indefinitely in that situation — from any state
with a drained buffer, a finished producer (hence exhausted source) and an
unmet target, no schedule whatsoever ever terminates its loop. -/
theorem c3_amended_only_wait_notify_breaks (s : RunState) (m : Move)
    (hbuf : s.pc.shared_queue = []) (hfin : s.pc.producer_finished = true)
    (hsr : s.src_rest = []) (hdone : s.consumer_done = false)
    (hlt : s.consumed < s.target) :
    (consumerStep .waitNotify s m).consumer_done = true ∧
    ∀ sched, (execSched .queue sched s).consumer_done = false := by
  obtain ⟨⟨buf, src, dest, cap, stats, fin⟩, sr, cons, tgt, done⟩ := s
  simp only at hbuf hfin hsr hdone hlt
  subst hbuf hfin hsr hdone
  constructor
  · simp [consumerStep, Nat.not_le.mpr hlt]
  · intro sched
    have hfix : ∀ m', step .queue
        ⟨⟨[], src, dest, cap, stats, true⟩, [], cons, tgt, false⟩ m' =
        ⟨⟨[], src, dest, cap, stats, true⟩, [], cons, tgt, false⟩ := by
      intro m'
      obtain ⟨role, dur, obs⟩ := m'
      cases role
      · simp [step, producerStep]
      · simp [step, consumerStep, Nat.not_le.mpr hlt]
    induction sched with
    | nil => rfl
    | cons m' rest ih =>
        show (execSched .queue rest
          (step .queue ⟨⟨[], src, dest, cap, stats, true⟩, [], cons, tgt, false⟩ m')).consumer_done = false
        rw [hfix m']
        exact ih

theorem c3_amended_witness :
    (consumerStep .waitNotify stuckState pmove).consumer_done = true ∧
    (execSched .queue [cmove, pmove, cmove] stuckState).consumer_done = false := by
  obtain ⟨h1, h2⟩ := c3_amended_only_wait_notify_breaks stuckState pmove
    rfl rfl rfl rfl (by decide)
  exact ⟨h1, h2 [cmove, pmove, cmove]⟩
